import Mathlib

/-!
Verification of the DeFiUtilityBot payment-settlement core.

The definitions below are a shallow embedding of the two Python source files
`backend/agents/car_agent.py` and `backend/agents/m2m_client.py`:

* Python floats are modelled as exact rationals (`ℚ`); `round(x, 2)` and
  `round(x)` use round-half-to-even, as Python does on exact values;
* geographic coordinates and the haversine distance are modelled over `ℝ`;
* fallible code is modelled with `Except`/`Option`: an `Except.error` at the
  top level of a function models a Python exception escaping to the caller;
* the network and the chain are modelled as explicit environments (records of
  functions) supplying the responses that the code would receive;
* the orchestrator `while`/`for` loops are modelled by structural recursion on
  the number of remaining iterations.
-/

namespace DeFiUtilityBot

/-! ## Rational helpers: Python rounding and USDC unit conversion -/

/-- Round-half-to-even of a rational to an integer: the behaviour of Python's
built-in `round` on an exactly represented value. -/
def rne (q : ℚ) : ℤ :=
  if q - ⌊q⌋ < 1/2 then ⌊q⌋
  else if 1/2 < q - ⌊q⌋ then ⌊q⌋ + 1
  else if ⌊q⌋ % 2 = 0 then ⌊q⌋ else ⌊q⌋ + 1

/-- Python `round(q, 2)`: round to 2 decimal places, half to even. -/
def round2 (q : ℚ) : ℚ := (rne (q * 100) : ℚ) / 100

/-- `USDC_DECIMALS` (both source files). -/
def USDC_DECIMALS : ℕ := 6

/-- `STABLECOIN` (both source files). -/
def STABLECOIN : String := "USDC"

/-- `to_usdc_base_units` (car_agent.py line 121): `int(round(x * 10 ** 6))`. -/
def to_usdc_base_units (amount_usd : ℚ) : ℤ := rne (amount_usd * 10 ^ USDC_DECIMALS)

/-- `from_usdc_base_units` (car_agent.py line 126): `float(amount) / 10 ** 6`. -/
def from_usdc_base_units (amount : ℤ) : ℚ := (amount : ℚ) / 10 ^ USDC_DECIMALS

/-! ## Amount Planner -/

/-- `cap_liters_to_fit_max_per_tx` (car_agent.py lines 284-301). -/
def cap_liters_to_fit_max_per_tx (liters max_price_per_liter_usd : ℚ)
    (max_per_tx_base_units : ℤ) : ℚ :=
  if max_price_per_liter_usd ≤ 0 then max 1 liters
  else
    let max_total_usd := from_usdc_base_units max_per_tx_base_units
    let max_liters := max_total_usd / max_price_per_liter_usd
    max 1 (round2 (min liters max_liters))

/-- Amount Planner modelled from the words of the spec (§4.3, `cap_to_policy`),
to be compared with the implementation above. -/
def cap_to_policy_spec (requested_quantity worst_case_unit_price : ℚ)
    (max_per_tx_smallest_unit : ℤ) : ℚ :=
  if worst_case_unit_price ≤ 0 then max 1 requested_quantity
  else
    max 1 (round2 (min requested_quantity
      (((max_per_tx_smallest_unit : ℚ) / 10 ^ 6) / worst_case_unit_price)))

/-! ## Character-list helpers for the revert-reason parsers -/

/-- The apostrophe character, written via its code point. -/
def quoteChar : Char := Char.ofNat 39

/-- The space character, written via its code point. -/
def spaceChar : Char := Char.ofNat 32

/-- Python `str.strip()`: drop whitespace from both ends. -/
def stripChars (l : List Char) : List Char :=
  ((l.dropWhile Char.isWhitespace).reverse.dropWhile Char.isWhitespace).reverse

/-- Return the first (leftmost) suffix of the input satisfying `p`, scanning
left to right, or `none`. -/
def scanFirst (p : List Char → Bool) : List Char → Option (List Char)
  | [] => none
  | c :: cs => if p (c :: cs) then some (c :: cs) else scanFirst p cs

/-- Everything after the first occurrence of `sep`, or `none` when `sep` does
not occur: the tail part of Python `msg.split(sep)[1:]`. -/
def afterFirst (sep : List Char) (l : List Char) : Option (List Char) :=
  (scanFirst (fun t => sep.isPrefixOf t) l).map (fun t => t.drop sep.length)

/-- Everything before the first occurrence of `sep` (the whole list when `sep`
does not occur): cuts a `split` segment at the next separator. -/
def beforeFirst (sep : List Char) : List Char → List Char
  | [] => []
  | c :: cs => if sep.isPrefixOf (c :: cs) then [] else c :: beforeFirst sep cs

/-- The separator used by the split-based parser (m2m_client.py line 177). -/
def sepColon : List Char := "execution reverted:".toList

/-- The literal part of the regex `execution reverted: ([^']+)`
(car_agent.py line 117), which includes the trailing space. -/
def sepColonSpace : List Char := "execution reverted: ".toList

/-- Whether a list starts with a non-apostrophe character: the `([^']+)` group
needs at least one such character to match. -/
def headNonQuote : List Char → Bool
  | [] => false
  | d :: _ => d != quoteChar

/-- Whether the regex `execution reverted: ([^']+)` matches at the head of the
given suffix. -/
def regexMatchAt (t : List Char) : Bool :=
  sepColonSpace.isPrefixOf t && headNonQuote (t.drop sepColonSpace.length)

/-- `parse_revert_reason` (car_agent.py lines 115-118):
`re.search` finds the leftmost position where the literal
`"execution reverted: "` is followed by at least one non-apostrophe character;
the greedy group `([^']+)` then captures up to the first apostrophe (or the
end), and the capture is stripped; `"REVERTED"` when there is no match. -/
def parse_revert_reason (msg : String) : String :=
  match (scanFirst regexMatchAt msg.toList).map
      (fun t => (t.drop sepColonSpace.length).takeWhile (fun d => d != quoteChar)) with
  | some captured => String.mk (stripChars captured)
  | none => "REVERTED"

/-- The split-based revert-reason extraction inlined in `send_vault_spend_tx`
(m2m_client.py lines 176-178):
`msg.split("execution reverted:")[1].split("'")[0].strip()` when the separator
occurs in the message, `"REVERTED"` otherwise. -/
def m2m_revert_reason (msg : String) : String :=
  match afterFirst sepColon msg.toList with
  | some rest =>
      String.mk (stripChars ((beforeFirst sepColon rest).takeWhile
        (fun d => d != quoteChar)))
  | none => "REVERTED"

/-! ## Settlement Executor -/

/-- Typed settlement error: the `type` discriminant (plus the claim-relevant
payload) of the error dicts built by `send_vault_spend_tx_safe`
(car_agent.py lines 150-237); the purely diagnostic payload fields
(addresses, free-text messages) do not affect control flow and are elided. -/
inductive SpendErr where
  | insufficientGas
  | contractRevert (reason : String)
  | txFailed (txHash : String)
  | txError (message : String)
deriving DecidableEq

/-- `SpendResult` (car_agent.py lines 130-133). -/
structure SpendResult where
  tx_hash : Option String
  error : Option SpendErr
deriving DecidableEq

/-- An exception thrown by the web3 pipeline inside the `try` block:
`ContractLogicError`, or any other `Exception`. -/
inductive ChainExc where
  | contractLogicError (message : String)
  | otherExc (message : String)
deriving DecidableEq

/-- A mined transaction receipt: `status` and the transaction hash. -/
structure Receipt where
  status : ℕ
  txHash : String
deriving DecidableEq

/-- The chain as seen by one `send_vault_spend_tx_safe` call.
`getBalance` models `w3.eth.get_balance` in the prologue that runs before the
`try` block (car_agent.py line 150) — `Except.error` there is an RPC exception,
which the function does not catch. `txOutcome` collapses the
build / gas-estimate / fee / sign / submit / receipt-wait pipeline inside the
`try` block: either an exception somewhere in it, or a receipt. -/
structure ChainEnv where
  getBalance : Except String ℕ
  txOutcome : Except ChainExc Receipt

/-- Hash normalisation (car_agent.py lines 212-214): add `0x` if absent. -/
def ensure0x (h : String) : String := if h.startsWith "0x" then h else "0x" ++ h

/-- `send_vault_spend_tx_safe` (car_agent.py lines 136-237). The result is
`Except.error` exactly when a Python exception escapes the function — which
happens when the balance read in the prologue throws, since only the code
after it is covered by `try`. -/
def send_vault_spend_tx_safe (env : ChainEnv)
    (vault_address owner merchant : String) (amount_base_units : ℤ) :
    Except String SpendResult :=
  match env.getBalance with
  | .error e => .error e
  | .ok bal =>
    if bal = 0 then .ok ⟨none, some .insufficientGas⟩
    else
      match env.txOutcome with
      | .error (.contractLogicError m) =>
          .ok ⟨none, some (.contractRevert (parse_revert_reason m))⟩
      | .error (.otherExc m) => .ok ⟨none, some (.txError m)⟩
      | .ok r =>
          if r.status ≠ 1 then .ok ⟨none, some (.txFailed r.txHash)⟩
          else .ok ⟨some (ensure0x r.txHash), none⟩

/-! ## Payment-required extraction -/

/-- The `payment_required` object of the server's 402 body; each field is
`none` when the key is absent. -/
structure PaymentReq where
  vault_address : Option String
  owner_address : Option String
  merchant_address : Option String
  amount_base_units : Option String
  token : Option String
  decimals : Option ℤ
deriving DecidableEq

/-- The empty dict used by `purchase_resp.get("payment_required") or {}`. -/
def emptyPaymentReq : PaymentReq := ⟨none, none, none, none, none, none⟩

/-- The server's 402 purchase response body. -/
structure PurchaseResp where
  invoiceId : Option String
  payment_required : Option PaymentReq
deriving DecidableEq

/-- The `missing` list (car_agent.py lines 326-327): names of required keys
whose value is absent. -/
def missingFields (pr : PaymentReq) : List String :=
  (if pr.vault_address.isNone then ["vault_address"] else []) ++
  (if pr.owner_address.isNone then ["owner_address"] else []) ++
  (if pr.merchant_address.isNone then ["merchant_address"] else []) ++
  (if pr.amount_base_units.isNone then ["amount_base_units"] else []) ++
  (if pr.token.isNone then ["token"] else []) ++
  (if pr.decimals.isNone then ["decimals"] else [])

/-- `extract_vault_payment_required` (car_agent.py lines 322-336).
`Except.error` models the `raise SystemExit(...)` calls: the exception
propagates out of the orchestrator uncaught. A falsy invoice id (absent key
or empty string) or any missing required key exits first; then a token or
decimals mismatch exits. -/
def extract_vault_payment_required (resp : PurchaseResp) :
    Except String (String × PaymentReq) :=
  match resp.invoiceId with
  | none => .error "Server 402 missing required fields"
  | some inv =>
    if inv = "" ∨ missingFields (resp.payment_required.getD emptyPaymentReq) ≠ [] then
      .error "Server 402 missing required fields"
    else if (resp.payment_required.getD emptyPaymentReq).token ≠ some STABLECOIN then
      .error "Payment token mismatch"
    else if (resp.payment_required.getD emptyPaymentReq).decimals ≠
        some (USDC_DECIMALS : ℤ) then
      .error "Decimals mismatch"
    else .ok (inv, resp.payment_required.getD emptyPaymentReq)

/-! ## Payment Orchestrator settlement loop (car_agent.py main, lines 496-586) -/

/-- `MAX_RETRIES_EXCEEDS_MAXPERTX` (car_agent.py line 81). -/
def MAX_RETRIES_EXCEEDS_MAXPERTX : ℕ := 2

/-- `LITERS_REDUCTION_FACTOR` (car_agent.py line 82). -/
def LITERS_REDUCTION_FACTOR : ℚ := 1/2

/-- `max_attempts = 1 + MAX_RETRIES_EXCEEDS_MAXPERTX` (car_agent.py line 497). -/
def max_attempts : ℕ := 1 + MAX_RETRIES_EXCEEDS_MAXPERTX

/-- The retry test (car_agent.py line 545): the error is a `CONTRACT_REVERT`
whose reason is exactly `"exceeds maxPerTx"`. -/
def isExceedsMaxPerTx : SpendErr → Bool
  | .contractRevert r => r == "exceeds maxPerTx"
  | _ => false

/-- The environment of one orchestration run: per attempt number, the server's
purchase response (status and body) for the liters requested, the result of
`send_vault_spend_tx_safe`, and the HTTP status of `/fuel/confirm`. -/
structure LoopEnv where
  purchase : ℕ → ℚ → ℕ × PurchaseResp
  spend : ℕ → SpendResult
  confirm : ℕ → ℕ

/-- Terminal outcome of one orchestration run. `fatalExit` is an uncaught
`SystemExit` escaping `main`; `aborted` is the `PAYMENT_ABORTED` event printed
after the `while` loop (car_agent.py lines 578-586). -/
inductive RunOutcome where
  | serverError (status : ℕ)
  | fatalExit (message : String)
  | paymentFailed (e : SpendErr)
  | confirmFailed
  | confirmed (txHash : String)
  | aborted
deriving DecidableEq

/-- One iteration of the settlement `while` loop (car_agent.py lines 499-576),
by recursion on the remaining iterations (`fuel = max_attempts - attempts`, so
the `while attempts < max_attempts` guard is `fuel > 0`). Returns the list of
liters quantities sent to `/fuel/purchase`, and the outcome. -/
def settleGo (env : LoopEnv) : ℕ → ℕ → ℚ → List ℚ × RunOutcome
  | 0, _, _ => ([], .aborted)
  | fuel + 1, attempts, liters =>
    if (env.purchase (attempts + 1) liters).1 ≠ 402 then
      ([liters], .serverError (env.purchase (attempts + 1) liters).1)
    else
      match extract_vault_payment_required (env.purchase (attempts + 1) liters).2 with
      | .error m => ([liters], .fatalExit m)
      | .ok _ =>
        match (env.spend (attempts + 1)).error with
        | some e =>
          if isExceedsMaxPerTx e = true ∧ attempts + 1 < max_attempts then
            (liters :: (settleGo env fuel (attempts + 1)
                (max 1 (round2 (liters * LITERS_REDUCTION_FACTOR)))).1,
              (settleGo env fuel (attempts + 1)
                (max 1 (round2 (liters * LITERS_REDUCTION_FACTOR)))).2)
          else ([liters], .paymentFailed e)
        | none =>
          if env.confirm (attempts + 1) ≠ 200 then ([liters], .confirmFailed)
          else ([liters], .confirmed ((env.spend (attempts + 1)).tx_hash.getD ""))

/-- The whole settlement loop: `attempts = 0`, `fuel = max_attempts`. -/
def settleRun (env : LoopEnv) (liters : ℚ) : List ℚ × RunOutcome :=
  settleGo env max_attempts 0 liters

/-- A well-formed `payment_required` object. -/
def goodPR : PaymentReq :=
  ⟨some "0xVault", some "0xOwner", some "0xMerchant", some "1000000",
    some "USDC", some 6⟩

/-- A well-formed 402 body. -/
def goodResp : PurchaseResp := ⟨some "inv-1", some goodPR⟩

/-- A 402 body whose `invoiceId` key is absent. -/
def missingInvoiceResp : PurchaseResp := ⟨none, some goodPR⟩

/-- The settlement result of a policy-violation revert. -/
def revertSpendResult : SpendResult :=
  ⟨none, some (.contractRevert "exceeds maxPerTx")⟩

/-- An environment in which every settlement attempt reverts with
`"exceeds maxPerTx"`. -/
def alwaysRevertEnv : LoopEnv :=
  ⟨fun _ _ => (402, goodResp), fun _ => revertSpendResult, fun _ => 200⟩

/-- An environment whose 402 body always lacks `invoiceId`. -/
def missingInvoiceEnv : LoopEnv :=
  ⟨fun _ _ => (402, missingInvoiceResp), fun _ => revertSpendResult, fun _ => 200⟩

/-! ## Confirmation polling (m2m_client.py main, lines 380-404) -/

/-- A `/m2m/confirm` reply: HTTP status and the body's `error` field. -/
structure ConfirmResp where
  status : ℕ
  errorField : Option String
deriving DecidableEq

/-- The retryable pending test (m2m_client.py line 396): status 402 with
`error` in `("PAYMENT_NOT_VERIFIED_YET", "PAYMENT_REQUIRED")`. -/
def isPendingResp (r : ConfirmResp) : Bool :=
  r.status == 402 &&
    (r.errorField == some "PAYMENT_NOT_VERIFIED_YET" ||
      r.errorField == some "PAYMENT_REQUIRED")

/-- Observable confirmation events: a poll of `/m2m/confirm` with its attempt
number, and a sleep with its duration in seconds. -/
inductive ConfirmEvent where
  | poll (attempt : ℕ)
  | sleepSec (seconds : ℕ)
deriving DecidableEq

/-- Outcome of the confirmation phase. -/
inductive ConfirmOutcome where
  | success
  | failed
  | timeout
deriving DecidableEq

/-- The `for attempt in range(1, max_attempts + 1)` confirmation loop
(m2m_client.py lines 381-404), by recursion on the remaining iterations;
running out of iterations is the `CONFIRM_TIMEOUT` path after the loop. -/
def confirmGo (env : ℕ → ConfirmResp) : ℕ → ℕ → List ConfirmEvent × ConfirmOutcome
  | 0, _ => ([], .timeout)
  | fuel + 1, attempt =>
    if (env attempt).status = 200 then ([.poll attempt], .success)
    else if isPendingResp (env attempt) = true then
      (.poll attempt :: .sleepSec 2 :: (confirmGo env fuel (attempt + 1)).1,
        (confirmGo env fuel (attempt + 1)).2)
    else ([.poll attempt], .failed)

/-- `max_attempts = 6` of the confirmation loop (m2m_client.py line 380). -/
def confirm_max_attempts : ℕ := 6

/-- The whole confirmation phase, attempts numbered from 1. -/
def confirmRun (env : ℕ → ConfirmResp) : List ConfirmEvent × ConfirmOutcome :=
  confirmGo env confirm_max_attempts 1

/-- Number of polls in an event trace. -/
def pollCount (tr : List ConfirmEvent) : ℕ :=
  (tr.filter fun e => match e with | .poll _ => true | _ => false).length

/-- An environment that always replies "payment not yet verified". -/
def pendingConfirmEnv : ℕ → ConfirmResp :=
  fun _ => ⟨402, some "PAYMENT_NOT_VERIFIED_YET"⟩

/-! ## Geo Resolver (m2m_client.py lines 67-85) -/

/-- A latitude/longitude pair. -/
structure GeoPoint where
  lat : ℝ
  lon : ℝ

/-- A service device from the registry: id, kind (the JSON "type" key),
display name, location. -/
structure Device where
  device_id : String
  devType : String
  name : String
  location : GeoPoint

/-- Python `math.radians`. -/
noncomputable def radians (x : ℝ) : ℝ := x * (Real.pi / 180)

/-- `haversine_m` (m2m_client.py lines 67-74): great-circle distance in
meters with Earth radius `R = 6371000`. -/
noncomputable def haversine_m (lat1 lon1 lat2 lon2 : ℝ) : ℝ :=
  2 * 6371000 * Real.arcsin (Real.sqrt
    (Real.sin (radians (lat2 - lat1) / 2) ^ 2 +
      Real.cos (radians lat1) * Real.cos (radians lat2) *
        Real.sin (radians (lon2 - lon1) / 2) ^ 2))

/-- Haversine distance from the client location to a device. -/
noncomputable def distTo (client_loc : GeoPoint) (d : Device) : ℝ :=
  haversine_m client_loc.lat client_loc.lon d.location.lat d.location.lon

/-- The linear scan inside `pick_nearest_device`: `best`/`best_d`
accumulators, updated only on strictly smaller distance. -/
noncomputable def pickGo (client_loc : GeoPoint) :
    List Device → Option Device → ℝ → Option Device × ℝ
  | [], best, best_d => (best, best_d)
  | d :: ds, best, best_d =>
    if distTo client_loc d < best_d then
      pickGo client_loc ds (some d) (distTo client_loc d)
    else pickGo client_loc ds best best_d

/-- Python `int()` truncation toward zero on a real value. -/
noncomputable def intTrunc (x : ℝ) : ℤ := if 0 ≤ x then ⌊x⌋ else ⌈x⌉

/-- `pick_nearest_device` (m2m_client.py lines 77-85): `best` starts as
`None`, `best_d` starts as `10 ** 18`; returns `(best, int(best_d))`. -/
noncomputable def pick_nearest_device (devices : List Device)
    (client_loc : GeoPoint) : Option Device × ℤ :=
  ((pickGo client_loc devices none (10 ^ 18)).1,
    intTrunc (pickGo client_loc devices none (10 ^ 18)).2)

/-- An origin for concrete instances. -/
def originPoint : GeoPoint := ⟨0, 0⟩

/-- A sample device at the origin. -/
def sampleDevice : Device := ⟨"dev-1", "gas_station", "Station 1", ⟨0, 0⟩⟩

/-! # Theorems -/

/-! ## Rounding bounds -/

theorem rne_le_add_half (q : ℚ) : (rne q : ℚ) ≤ q + 1/2 := by
  have hf : ((⌊q⌋ : ℤ) : ℚ) ≤ q := Int.floor_le q
  have hq : q < (⌊q⌋ : ℚ) + 1 := Int.lt_floor_add_one q
  unfold rne
  split_ifs with h1 h2 h3 <;> push_cast <;> linarith

theorem sub_half_le_rne (q : ℚ) : q - 1/2 ≤ (rne q : ℚ) := by
  have hf : ((⌊q⌋ : ℤ) : ℚ) ≤ q := Int.floor_le q
  have hq : q < (⌊q⌋ : ℚ) + 1 := Int.lt_floor_add_one q
  unfold rne
  split_ifs with h1 h2 h3 <;> push_cast <;> linarith

theorem round2_le (q : ℚ) : round2 q ≤ q + 1/200 := by
  unfold round2
  have h := rne_le_add_half (q * 100)
  rw [div_le_iff₀ (by norm_num : (0:ℚ) < 100)]
  linarith

theorem le_round2 (q : ℚ) : q - 1/200 ≤ round2 q := by
  unfold round2
  have h := sub_half_le_rne (q * 100)
  rw [le_div_iff₀ (by norm_num : (0:ℚ) < 100)]
  linarith

theorem rne_intCast (k : ℤ) : rne (k : ℚ) = k := by
  unfold rne
  rw [Int.floor_intCast]
  simp

/-! ## Claim C4 -/

/-- Claim C4: the Amount Planner computes exactly the spec formula — degenerate
guard `max(1, requested)` when the worst-case price is nonpositive, otherwise
`max(1, round2(min(requested, (maxPerTx / 10^6) / price)))` — and in particular
`cap(40, 2.5, 50_000_000) = 20` and `cap(0.5, 2.0, 100_000_000) = 1`. -/
theorem cap_liters_matches_spec :
    (∀ (l p : ℚ) (m : ℤ),
      cap_liters_to_fit_max_per_tx l p m = cap_to_policy_spec l p m) ∧
    cap_liters_to_fit_max_per_tx 40 (5/2) 50000000 = 20 ∧
    cap_liters_to_fit_max_per_tx (1/2) 2 100000000 = 1 := by
  refine ⟨fun _ _ _ => rfl, ?_, ?_⟩
  · unfold cap_liters_to_fit_max_per_tx from_usdc_base_units round2 rne USDC_DECIMALS
    norm_num [min_def, max_def]
  · unfold cap_liters_to_fit_max_per_tx from_usdc_base_units round2 rne USDC_DECIMALS
    norm_num [min_def, max_def]

/-! ## Claim C3 -/

/-- Claim C3 counterexample: with worst-case unit price 1000 and a per-tx
ceiling of 1.0 USDC (1_000_000 base units), the planner's floor of 1.0 liter
yields a worst-case cost of 1000, far above the ceiling even after allowing
the 2-decimal rounding slack of `price * 0.005`. -/
theorem cap_liters_floor_breaks_ceiling :
    cap_liters_to_fit_max_per_tx 40 1000 1000000 = 1 ∧
    ¬(cap_liters_to_fit_max_per_tx 40 1000 1000000 * 1000 ≤
        from_usdc_base_units 1000000 + 1000 * (1/200)) := by
  constructor
  · unfold cap_liters_to_fit_max_per_tx from_usdc_base_units round2 rne USDC_DECIMALS
    norm_num [min_def, max_def]
  · unfold cap_liters_to_fit_max_per_tx from_usdc_base_units round2 rne USDC_DECIMALS
    norm_num [min_def, max_def]

/-- Claim C3 (amended): when the per-transaction ceiling covers at least one
unit at the worst-case price (`price ≤ ceiling` in decimal units), the
planner's result is at least 1 and its worst-case cost exceeds the ceiling by
at most the 2-decimal rounding slack `price * 0.005`. Without that proviso the
1.0-liter floor can exceed the ceiling (see the counterexample). -/
theorem cap_liters_policy_bound (liters p : ℚ) (m : ℤ) (hp : 0 < p)
    (hm : p ≤ from_usdc_base_units m) :
    1 ≤ cap_liters_to_fit_max_per_tx liters p m ∧
    cap_liters_to_fit_max_per_tx liters p m * p ≤
      from_usdc_base_units m + p * (1/200) := by
  have hnp : ¬(p ≤ 0) := not_le.mpr hp
  unfold cap_liters_to_fit_max_per_tx
  rw [if_neg hnp]
  set T := from_usdc_base_units m with hT
  set L := T / p with hL
  refine ⟨le_max_left _ _, ?_⟩
  have hL1 : 1 ≤ L := (one_le_div hp).mpr hm
  have h1 : round2 (min liters L) ≤ L + 1/200 := by
    have := round2_le (min liters L)
    have := min_le_right liters L
    linarith
  have h2 : max 1 (round2 (min liters L)) ≤ L + 1/200 := by
    apply max_le _ h1
    linarith
  have h3 : max 1 (round2 (min liters L)) * p ≤ (L + 1/200) * p :=
    mul_le_mul_of_nonneg_right h2 hp.le
  have h4 : (L + 1/200) * p = T + p * (1/200) := by
    rw [add_mul, hL, div_mul_cancel₀ _ (ne_of_gt hp)]
    ring
  linarith

/-- Claim C3 witness: the amended bound evaluated at
`cap(40, 2.5, 50_000_000)`. -/
theorem cap_liters_policy_bound_witness :
    1 ≤ cap_liters_to_fit_max_per_tx 40 (5/2) 50000000 ∧
    cap_liters_to_fit_max_per_tx 40 (5/2) 50000000 * (5/2) ≤
      from_usdc_base_units 50000000 + (5/2) * (1/200) :=
  cap_liters_policy_bound 40 (5/2) 50000000 (by norm_num)
    (by unfold from_usdc_base_units USDC_DECIMALS; norm_num)

/-! ## Claim C10 -/

/-- Claim C10: for every non-negative integer amount up to `10^15` of smallest
token units, converting to decimal units and back is the identity:
`to_usdc_base_units (from_usdc_base_units n) = n`. -/
theorem usdc_units_round_trip (n : ℕ) (h : n ≤ 10 ^ 15) :
    to_usdc_base_units (from_usdc_base_units (n : ℤ)) = (n : ℤ) := by
  unfold to_usdc_base_units from_usdc_base_units
  rw [div_mul_cancel₀ _ (by norm_num : ((10 : ℚ) ^ USDC_DECIMALS) ≠ 0)]
  exact rne_intCast (n : ℤ)

/-- Claim C10 witness: the round trip at `n = 123456`. -/
theorem usdc_units_round_trip_witness :
    to_usdc_base_units (from_usdc_base_units ((123456 : ℕ) : ℤ)) = ((123456 : ℕ) : ℤ) :=
  usdc_units_round_trip 123456 (by norm_num)

/-! ## Claim C9 -/

theorem scanFirst_pos (p : List Char → Bool) (l : List Char) (hne : l ≠ [])
    (h : p l = true) : scanFirst p l = some l := by
  cases l with
  | nil => exact absurd rfl hne
  | cons c cs =>
    unfold scanFirst
    rw [if_pos h]

theorem beforeFirst_of_no_occurrence (sep : List Char) (l : List Char)
    (h : scanFirst (fun t => sep.isPrefixOf t) l = none) :
    beforeFirst sep l = l := by
  induction l with
  | nil => rfl
  | cons c cs ih =>
    unfold scanFirst at h
    by_cases hc : sep.isPrefixOf (c :: cs) = true
    · rw [if_pos hc] at h
      cases h
    · rw [if_neg hc] at h
      unfold beforeFirst
      rw [if_neg hc, ih h]

/-- Claim C9 counterexample: on the message `"execution reverted:foo"` (no
space after the colon) the regex parser yields the default `"REVERTED"` — its
pattern requires a space after the colon — while the split parser yields
`"foo"`: the two parsers do not agree on every input, and the regex parser
does not return the trimmed substring following `"execution reverted:"`. -/
theorem revert_reason_parsers_disagree :
    parse_revert_reason "execution reverted:foo" = "REVERTED" ∧
    m2m_revert_reason "execution reverted:foo" = "foo" ∧
    ("REVERTED" : String) ≠ "foo" :=
  ⟨by decide, by decide, by decide⟩

/-- Claim C9 (amended): the common specification only holds on well-formed
messages. On any message of the form `"execution reverted: " ++ r` where the
reason `r` is nonempty, contains no apostrophe, and contains no further
occurrence of `"execution reverted:"`, both parsers return `r` trimmed of
whitespace; in general they differ (see the counterexample: the regex parser
requires a space after the colon and both stop at an apostrophe). -/
theorem revert_reason_parsers_agree (r : List Char) (h1 : r ≠ [])
    (h2 : quoteChar ∉ r) (h3 : afterFirst sepColon r = none) :
    parse_revert_reason (String.mk (sepColonSpace ++ r)) = String.mk (stripChars r) ∧
    m2m_revert_reason (String.mk (sepColonSpace ++ r)) = String.mk (stripChars r) := by
  obtain ⟨d, rs, rfl⟩ : ∃ d rs, r = d :: rs := by
    cases r with
    | nil => exact absurd rfl h1
    | cons d rs => exact ⟨d, rs, rfl⟩
  have h3' : scanFirst (fun t => sepColon.isPrefixOf t) (d :: rs) = none := by
    unfold afterFirst at h3
    cases hsc : scanFirst (fun t => sepColon.isPrefixOf t) (d :: rs) with
    | none => rfl
    | some t =>
      rw [hsc] at h3
      cases h3
  have hdq : d ≠ quoteChar := by
    intro he
    exact h2 (he ▸ List.mem_cons_self d rs)
  have hpre : sepColonSpace.isPrefixOf (sepColonSpace ++ (d :: rs)) = true := by
    rw [List.isPrefixOf_iff_prefix]
    exact List.prefix_append _ _
  have hdrop : (sepColonSpace ++ (d :: rs)).drop sepColonSpace.length = d :: rs :=
    List.drop_left _ _
  have hmatch : regexMatchAt (sepColonSpace ++ (d :: rs)) = true := by
    unfold regexMatchAt
    rw [hdrop, hpre]
    unfold headNonQuote
    simp [hdq]
  have hscan : scanFirst regexMatchAt (sepColonSpace ++ (d :: rs)) =
      some (sepColonSpace ++ (d :: rs)) :=
    scanFirst_pos _ _ (by simp) hmatch
  have htake : (d :: rs).takeWhile (fun x => x != quoteChar) = d :: rs := by
    rw [List.takeWhile_eq_self_iff]
    intro x hx
    simp only [bne_iff_ne, ne_eq]
    intro hxe
    exact h2 (hxe ▸ hx)
  constructor
  · unfold parse_revert_reason
    rw [show (String.mk (sepColonSpace ++ (d :: rs))).toList =
      sepColonSpace ++ (d :: rs) from rfl, hscan]
    simp only [Option.map, hdrop, htake]
  · have hsepeq : sepColonSpace = sepColon ++ [spaceChar] := by decide
    have hpre2 : sepColon.isPrefixOf (sepColonSpace ++ (d :: rs)) = true := by
      rw [List.isPrefixOf_iff_prefix, hsepeq, List.append_assoc]
      exact List.prefix_append _ _
    have hdrop2 : (sepColonSpace ++ (d :: rs)).drop sepColon.length =
        spaceChar :: d :: rs := by
      rw [hsepeq, List.append_assoc]
      exact List.drop_left _ _
    have hafter : afterFirst sepColon (sepColonSpace ++ (d :: rs)) =
        some (spaceChar :: d :: rs) := by
      unfold afterFirst
      rw [scanFirst_pos _ _ (by simp) hpre2]
      simp only [Option.map, hdrop2]
    have hnotpre : ¬(sepColon.isPrefixOf (spaceChar :: d :: rs) = true) := by
      rw [List.isPrefixOf_iff_prefix]
      intro hp
      obtain ⟨t, ht⟩ := hp
      rw [show sepColon = 'e' :: "xecution reverted:".toList from rfl] at ht
      injection ht with hh _
      exact absurd hh (by decide)
    have hbefore_r : beforeFirst sepColon (d :: rs) = d :: rs :=
      beforeFirst_of_no_occurrence _ _ h3'
    have hbefore : beforeFirst sepColon (spaceChar :: d :: rs) =
        spaceChar :: d :: rs := by
      unfold beforeFirst
      rw [if_neg hnotpre, hbefore_r]
    have htake2 : (spaceChar :: d :: rs).takeWhile (fun x => x != quoteChar) =
        spaceChar :: d :: rs := by
      rw [List.takeWhile_eq_self_iff]
      intro x hx
      rcases List.mem_cons.mp hx with h | h
      · subst h
        decide
      · simp only [bne_iff_ne, ne_eq]
        intro hxe
        exact h2 (hxe ▸ h)
    have hstrip : stripChars (spaceChar :: d :: rs) = stripChars (d :: rs) := by
      unfold stripChars
      rw [List.dropWhile_cons]
      norm_num [show Char.isWhitespace spaceChar = true from by decide]
    unfold m2m_revert_reason
    rw [show (String.mk (sepColonSpace ++ (d :: rs))).toList =
      sepColonSpace ++ (d :: rs) from rfl, hafter]
    simp only [hbefore, htake2, hstrip]

/-- Claim C9 witness: both parsers on
`"execution reverted: exceeds maxPerTx"` return `"exceeds maxPerTx"`. -/
theorem revert_reason_parsers_agree_witness :
    parse_revert_reason (String.mk (sepColonSpace ++ "exceeds maxPerTx".toList)) =
      String.mk (stripChars "exceeds maxPerTx".toList) ∧
    m2m_revert_reason (String.mk (sepColonSpace ++ "exceeds maxPerTx".toList)) =
      String.mk (stripChars "exceeds maxPerTx".toList) :=
  revert_reason_parsers_agree "exceeds maxPerTx".toList (by decide) (by decide)
    (by decide)

/-! ## Claim C2 -/

/-- Claim C2 counterexample: the balance check `w3.eth.get_balance` runs
before the `try` block, so an RPC exception during it escapes
`send_vault_spend_tx_safe` to the caller — the function is not exception-free
for every input. -/
theorem spend_safe_raises_on_rpc_failure :
    send_vault_spend_tx_safe ⟨.error "ConnectionError", .ok ⟨1, "ab"⟩⟩
      "vault" "owner" "merchant" 1 = .error "ConnectionError" := rfl

/-- Claim C2 (amended): provided the native-gas balance read in the prologue
succeeds, `send_vault_spend_tx_safe` never raises: it returns a discriminated
`SpendResult` in which exactly one of `tx_hash` and `error` is populated, and
the outcome is classified as claimed — zero balance is `INSUFFICIENT_GAS`, a
contract revert is `CONTRACT_REVERT` with the parsed reason, any other
exception is `TX_ERROR`, a mined-but-failed transaction is `TX_FAILED`, and
success carries the `0x`-prefixed hash with no error. -/
theorem spend_safe_discriminated (env : ChainEnv) (vault owner merchant : String)
    (amount : ℤ) (hA : 0 < amount) (b : ℕ) (hb : env.getBalance = .ok b) :
    ∃ res : SpendResult,
      send_vault_spend_tx_safe env vault owner merchant amount = .ok res ∧
      ((res.tx_hash = none ∧ res.error.isSome = true) ∨
        (res.tx_hash.isSome = true ∧ res.error = none)) ∧
      (b = 0 → res.error = some .insufficientGas) ∧
      (∀ m, b ≠ 0 → env.txOutcome = .error (.contractLogicError m) →
        res.error = some (.contractRevert (parse_revert_reason m))) ∧
      (∀ m, b ≠ 0 → env.txOutcome = .error (.otherExc m) →
        res.error = some (.txError m)) ∧
      (∀ r, b ≠ 0 → env.txOutcome = .ok r → r.status ≠ 1 →
        res.error = some (.txFailed r.txHash)) ∧
      (∀ r, b ≠ 0 → env.txOutcome = .ok r → r.status = 1 →
        res.tx_hash = some (ensure0x r.txHash) ∧ res.error = none) := by
  obtain ⟨gb, tox⟩ := env
  dsimp only at hb ⊢
  subst hb
  unfold send_vault_spend_tx_safe
  dsimp only
  by_cases h0 : b = 0
  · subst h0
    rw [if_pos rfl]
    refine ⟨_, rfl, Or.inl ⟨rfl, rfl⟩, fun _ => rfl, ?_, ?_, ?_, ?_⟩
    · intro m hne _
      exact absurd rfl hne
    · intro m hne _
      exact absurd rfl hne
    · intro r hne _ _
      exact absurd rfl hne
    · intro r hne _ _
      exact absurd rfl hne
  · rw [if_neg h0]
    cases hT : tox with
    | error e =>
      cases e with
      | contractLogicError m =>
        refine ⟨_, rfl, Or.inl ⟨rfl, rfl⟩, fun hc => absurd hc h0, ?_, ?_, ?_, ?_⟩
        · intro m2 _ hm
          injection hm with hm2
          injection hm2 with hm3
          rw [hm3]
        · intro m2 _ hm
          simp at hm
        · intro r _ hm _
          simp at hm
        · intro r _ hm _
          simp at hm
      | otherExc m =>
        refine ⟨_, rfl, Or.inl ⟨rfl, rfl⟩, fun hc => absurd hc h0, ?_, ?_, ?_, ?_⟩
        · intro m2 _ hm
          simp at hm
        · intro m2 _ hm
          injection hm with hm2
          injection hm2 with hm3
          rw [hm3]
        · intro r _ hm _
          simp at hm
        · intro r _ hm _
          simp at hm
    | ok r =>
      dsimp only
      by_cases hs : r.status ≠ 1
      · rw [if_pos hs]
        refine ⟨_, rfl, Or.inl ⟨rfl, rfl⟩, fun hc => absurd hc h0, ?_, ?_, ?_, ?_⟩
        · intro m2 _ hm
          simp at hm
        · intro m2 _ hm
          simp at hm
        · intro r2 _ hm _
          injection hm with hr
          rw [hr]
        · intro r2 _ hm hst
          injection hm with hr
          subst hr
          exact absurd hst hs
      · rw [if_neg hs]
        have hst : r.status = 1 := not_ne_iff.mp hs
        refine ⟨_, rfl, Or.inr ⟨rfl, rfl⟩, fun hc => absurd hc h0, ?_, ?_, ?_, ?_⟩
        · intro m2 _ hm
          simp at hm
        · intro m2 _ hm
          simp at hm
        · intro r2 _ hm hne2
          injection hm with hr
          subst hr
          exact absurd hst hne2
        · intro r2 _ hm _
          injection hm with hr
          subst hr
          exact ⟨rfl, rfl⟩

/-- Claim C2 witness: the discriminated-result guarantee at a concrete
environment with balance 5 and a successful receipt. -/
theorem spend_safe_discriminated_witness :
    ∃ res : SpendResult,
      send_vault_spend_tx_safe ⟨.ok 5, .ok ⟨1, "abc"⟩⟩ "v" "o" "m" 1 = .ok res ∧
      ((res.tx_hash = none ∧ res.error.isSome = true) ∨
        (res.tx_hash.isSome = true ∧ res.error = none)) ∧
      (5 = 0 → res.error = some .insufficientGas) ∧
      (∀ m, 5 ≠ 0 → (ChainEnv.mk (.ok 5) (.ok ⟨1, "abc"⟩)).txOutcome =
          .error (.contractLogicError m) →
        res.error = some (.contractRevert (parse_revert_reason m))) ∧
      (∀ m, 5 ≠ 0 → (ChainEnv.mk (.ok 5) (.ok ⟨1, "abc"⟩)).txOutcome =
          .error (.otherExc m) →
        res.error = some (.txError m)) ∧
      (∀ r, 5 ≠ 0 → (ChainEnv.mk (.ok 5) (.ok ⟨1, "abc"⟩)).txOutcome = .ok r →
          r.status ≠ 1 → res.error = some (.txFailed r.txHash)) ∧
      (∀ r, 5 ≠ 0 → (ChainEnv.mk (.ok 5) (.ok ⟨1, "abc"⟩)).txOutcome = .ok r →
          r.status = 1 → res.tx_hash = some (ensure0x r.txHash) ∧ res.error = none) :=
  spend_safe_discriminated ⟨.ok 5, .ok ⟨1, "abc"⟩⟩ "v" "o" "m" 1 (by norm_num) 5 rfl

/-! ## Claim C1 -/

theorem settleGo_succ (env : LoopEnv) (fuel attempts : ℕ) (liters : ℚ) :
    settleGo env (fuel + 1) attempts liters =
      (if (env.purchase (attempts + 1) liters).1 ≠ 402 then
        ([liters], .serverError (env.purchase (attempts + 1) liters).1)
      else
        match extract_vault_payment_required (env.purchase (attempts + 1) liters).2 with
        | .error m => ([liters], .fatalExit m)
        | .ok _ =>
          match (env.spend (attempts + 1)).error with
          | some e =>
            if isExceedsMaxPerTx e = true ∧ attempts + 1 < max_attempts then
              (liters :: (settleGo env fuel (attempts + 1)
                  (max 1 (round2 (liters * LITERS_REDUCTION_FACTOR)))).1,
                (settleGo env fuel (attempts + 1)
                  (max 1 (round2 (liters * LITERS_REDUCTION_FACTOR)))).2)
            else ([liters], .paymentFailed e)
          | none =>
            if env.confirm (attempts + 1) ≠ 200 then ([liters], .confirmFailed)
            else ([liters], .confirmed ((env.spend (attempts + 1)).tx_hash.getD ""))) :=
  rfl

theorem alwaysRevert_step (fuel attempts : ℕ) (liters : ℚ)
    (h : attempts + 1 < max_attempts) :
    settleGo alwaysRevertEnv (fuel + 1) attempts liters =
      (liters :: (settleGo alwaysRevertEnv fuel (attempts + 1)
          (max 1 (round2 (liters * LITERS_REDUCTION_FACTOR)))).1,
        (settleGo alwaysRevertEnv fuel (attempts + 1)
          (max 1 (round2 (liters * LITERS_REDUCTION_FACTOR)))).2) := by
  rw [settleGo_succ]
  simp only [alwaysRevertEnv, revertSpendResult,
    show extract_vault_payment_required goodResp = .ok ("inv-1", goodPR) from rfl]
  simp [h, show isExceedsMaxPerTx (.contractRevert "exceeds maxPerTx") = true from rfl]

theorem alwaysRevert_last (fuel attempts : ℕ) (liters : ℚ)
    (h : ¬(attempts + 1 < max_attempts)) :
    settleGo alwaysRevertEnv (fuel + 1) attempts liters =
      ([liters], .paymentFailed (.contractRevert "exceeds maxPerTx")) := by
  rw [settleGo_succ]
  simp only [alwaysRevertEnv, revertSpendResult,
    show extract_vault_payment_required goodResp = .ok ("inv-1", goodPR) from rfl]
  simp [h, show isExceedsMaxPerTx (.contractRevert "exceeds maxPerTx") = true from rfl]

theorem settleGo_ne_aborted (env : LoopEnv) :
    ∀ (fuel attempts : ℕ) (liters : ℚ), attempts + fuel = max_attempts → 0 < fuel →
      (settleGo env fuel attempts liters).2 ≠ .aborted := by
  intro fuel
  induction fuel with
  | zero =>
    intro attempts liters _ h0
    exact absurd h0 (lt_irrefl 0)
  | succ f ih =>
    intro attempts liters hsum _
    rw [settleGo_succ]
    by_cases h402 : (env.purchase (attempts + 1) liters).1 ≠ 402
    · rw [if_pos h402]
      simp
    · rw [if_neg h402]
      cases hex : extract_vault_payment_required (env.purchase (attempts + 1) liters).2 with
      | error m => simp
      | ok pr =>
        dsimp only
        cases hsp : (env.spend (attempts + 1)).error with
        | some e =>
          dsimp only
          by_cases hretry : isExceedsMaxPerTx e = true ∧ attempts + 1 < max_attempts
          · rw [if_pos hretry]
            dsimp only
            have hf : 0 < f := by
              rcases hretry with ⟨-, hlt⟩
              omega
            exact ih (attempts + 1) _ (by omega) hf
          · rw [if_neg hretry]
            simp
        | none =>
          dsimp only
          by_cases hc : env.confirm (attempts + 1) ≠ 200
          · rw [if_pos hc]
            simp
          · rw [if_neg hc]
            simp

/-- Claim C1: starting from liters = 40, three consecutive
`CONTRACT_REVERT("exceeds maxPerTx")` settlement failures produce exactly the
attempted quantities 40, 20, 10 (halving, 2-decimal rounding, floor 1.0, fresh
quote each time, 3 total attempts) — but the run then ends with the
`PAYMENT_FAILED` return on the third revert, not with the `PAYMENT_ABORTED`
event: the post-loop `ABORTED` branch is unreachable for every environment,
because every loop iteration returns or retries with the guard still true. -/
theorem settle_retry_halves_and_abort_unreachable :
    settleRun alwaysRevertEnv 40 =
      ([40, 20, 10], .paymentFailed (.contractRevert "exceeds maxPerTx")) ∧
    (∀ (env : LoopEnv) (liters : ℚ), (settleRun env liters).2 ≠ .aborted) := by
  constructor
  · have e1 : max (1:ℚ) (round2 (40 * LITERS_REDUCTION_FACTOR)) = 20 := by
      unfold LITERS_REDUCTION_FACTOR round2 rne
      norm_num [max_def]
    have e2 : max (1:ℚ) (round2 (20 * LITERS_REDUCTION_FACTOR)) = 10 := by
      unfold LITERS_REDUCTION_FACTOR round2 rne
      norm_num [max_def]
    have hlt1 : 0 + 1 < max_attempts := by
      norm_num [max_attempts, MAX_RETRIES_EXCEEDS_MAXPERTX]
    have hlt2 : 1 + 1 < max_attempts := by
      norm_num [max_attempts, MAX_RETRIES_EXCEEDS_MAXPERTX]
    have hlt3 : ¬(2 + 1 < max_attempts) := by
      norm_num [max_attempts, MAX_RETRIES_EXCEEDS_MAXPERTX]
    have s1 : settleGo alwaysRevertEnv 3 0 40 =
        (40 :: (settleGo alwaysRevertEnv 2 1 20).1,
          (settleGo alwaysRevertEnv 2 1 20).2) := by
      have h := alwaysRevert_step 2 0 40 hlt1
      rw [e1] at h
      exact h
    have s2 : settleGo alwaysRevertEnv 2 1 20 =
        (20 :: (settleGo alwaysRevertEnv 1 2 10).1,
          (settleGo alwaysRevertEnv 1 2 10).2) := by
      have h := alwaysRevert_step 1 1 20 hlt2
      rw [e2] at h
      exact h
    have s3 : settleGo alwaysRevertEnv 1 2 10 =
        ([10], .paymentFailed (.contractRevert "exceeds maxPerTx")) :=
      alwaysRevert_last 0 2 10 hlt3
    show settleGo alwaysRevertEnv 3 0 40 = _
    rw [s1, s2, s3]
  · intro env liters
    exact settleGo_ne_aborted env max_attempts 0 liters (Nat.zero_add _)
      (by norm_num [max_attempts, MAX_RETRIES_EXCEEDS_MAXPERTX])

/-! ## Claim C8 -/

/-- Claim C8 counterexample: a 402 body whose `invoiceId` key is absent makes
the orchestrator raise `SystemExit` out of `main` (the `fatalExit` outcome
models the uncaught exception) — the schema failure is raised as a program
fault, not reported as a structured outcome the way settlement failures are.
It is indeed never retried: the run ends after a single purchase attempt. -/
theorem schema_failure_is_raised :
    extract_vault_payment_required missingInvoiceResp =
      .error "Server 402 missing required fields" ∧
    settleRun missingInvoiceEnv 40 =
      ([40], .fatalExit "Server 402 missing required fields") :=
  ⟨rfl, rfl⟩

/-- Claim C8 (amended): a missing invoice id, an empty invoice id, any missing
required field, a token different from the configured stablecoin, or a
decimals mismatch is a terminal schema failure: extraction fails, the run ends
on the first attempt with no retry — but by raising a fatal `SystemExit`
(`fatalExit`), not by reporting a structured outcome. -/
theorem schema_failure_never_retried (resp : PurchaseResp) (env : LoopEnv) (l : ℚ)
    (hbad : resp.invoiceId = none ∨ resp.invoiceId = some "" ∨
      missingFields (resp.payment_required.getD emptyPaymentReq) ≠ [] ∨
      (resp.payment_required.getD emptyPaymentReq).token ≠ some STABLECOIN ∨
      (resp.payment_required.getD emptyPaymentReq).decimals ≠ some (USDC_DECIMALS : ℤ))
    (hp : ∀ l2, env.purchase 1 l2 = (402, resp)) :
    ∃ m, extract_vault_payment_required resp = .error m ∧
      settleRun env l = ([l], .fatalExit m) := by
  obtain ⟨m, hm⟩ : ∃ m, extract_vault_payment_required resp = .error m := by
    unfold extract_vault_payment_required
    cases hinv : resp.invoiceId with
    | none => exact ⟨_, rfl⟩
    | some inv =>
      dsimp only
      rcases hbad with h | h | h | h | h
      · rw [hinv] at h
        cases h
      · rw [hinv] at h
        injection h with h
        subst h
        rw [if_pos (Or.inl rfl)]
        exact ⟨_, rfl⟩
      · rw [if_pos (Or.inr h)]
        exact ⟨_, rfl⟩
      · by_cases hc1 : inv = "" ∨
            missingFields (resp.payment_required.getD emptyPaymentReq) ≠ []
        · rw [if_pos hc1]
          exact ⟨_, rfl⟩
        · rw [if_neg hc1, if_pos h]
          exact ⟨_, rfl⟩
      · by_cases hc1 : inv = "" ∨
            missingFields (resp.payment_required.getD emptyPaymentReq) ≠ []
        · rw [if_pos hc1]
          exact ⟨_, rfl⟩
        · rw [if_neg hc1]
          by_cases hc2 : (resp.payment_required.getD emptyPaymentReq).token ≠
              some STABLECOIN
          · rw [if_pos hc2]
            exact ⟨_, rfl⟩
          · rw [if_neg hc2, if_pos h]
            exact ⟨_, rfl⟩
  refine ⟨m, hm, ?_⟩
  show settleGo env (2 + 1) 0 l = ([l], .fatalExit m)
  rw [settleGo_succ]
  simp [Nat.zero_add, hp l, hm]

/-- Claim C8 witness: the schema-exit behaviour at the concrete
missing-invoice environment. -/
theorem schema_failure_never_retried_witness :
    ∃ m, extract_vault_payment_required missingInvoiceResp = .error m ∧
      settleRun missingInvoiceEnv 40 = ([40], .fatalExit m) :=
  schema_failure_never_retried missingInvoiceResp missingInvoiceEnv 40
    (Or.inl rfl) (fun _ => rfl)

/-! ## Claim C5 -/

theorem confirmGo_succ (env : ℕ → ConfirmResp) (fuel attempt : ℕ) :
    confirmGo env (fuel + 1) attempt =
      (if (env attempt).status = 200 then ([.poll attempt], .success)
      else if isPendingResp (env attempt) = true then
        (.poll attempt :: .sleepSec 2 :: (confirmGo env fuel (attempt + 1)).1,
          (confirmGo env fuel (attempt + 1)).2)
      else ([.poll attempt], .failed)) :=
  rfl

theorem isPendingResp_status (r : ConfirmResp) (h : isPendingResp r = true) :
    r.status = 402 := by
  simp [isPendingResp] at h
  exact h.1

theorem pollCount_poll (a : ℕ) (tr : List ConfirmEvent) :
    pollCount (.poll a :: tr) = pollCount tr + 1 := by
  simp [pollCount, List.filter_cons]

theorem pollCount_sleep (s : ℕ) (tr : List ConfirmEvent) :
    pollCount (.sleepSec s :: tr) = pollCount tr := by
  simp [pollCount, List.filter_cons]

theorem pollCount_confirmGo_le (env : ℕ → ConfirmResp) :
    ∀ (fuel attempt : ℕ), pollCount (confirmGo env fuel attempt).1 ≤ fuel := by
  intro fuel
  induction fuel with
  | zero =>
    intro attempt
    exact Nat.le.refl
  | succ f ih =>
    intro attempt
    rw [confirmGo_succ]
    by_cases h200 : (env attempt).status = 200
    · rw [if_pos h200]
      show 1 ≤ f + 1
      omega
    · rw [if_neg h200]
      by_cases hp : isPendingResp (env attempt) = true
      · rw [if_pos hp]
        dsimp only
        rw [pollCount_poll, pollCount_sleep]
        have := ih (attempt + 1)
        omega
      · rw [if_neg hp]
        show 1 ≤ f + 1
        omega

/-- Claim C5: confirmation polling — a pending reply (402 with
`PAYMENT_NOT_VERIFIED_YET` or `PAYMENT_REQUIRED`) causes a 2-second sleep and
a re-poll; six consecutive pending replies end in `CONFIRM_TIMEOUT` after
exactly six polls (a seventh is never attempted, and no run ever polls more
than six times); a 200 reply ends the phase successfully at once; any other
reply ends it in `CONFIRM_FAILED` at once. -/
theorem confirm_polling_behaviour :
    (∀ env : ℕ → ConfirmResp,
      (∀ a, 1 ≤ a → a ≤ 6 → isPendingResp (env a) = true) →
      confirmRun env =
        ([.poll 1, .sleepSec 2, .poll 2, .sleepSec 2, .poll 3, .sleepSec 2,
          .poll 4, .sleepSec 2, .poll 5, .sleepSec 2, .poll 6, .sleepSec 2],
          .timeout)) ∧
    (∀ (env : ℕ → ConfirmResp) (fuel attempt : ℕ), (env attempt).status = 200 →
      confirmGo env (fuel + 1) attempt = ([.poll attempt], .success)) ∧
    (∀ (env : ℕ → ConfirmResp) (fuel attempt : ℕ), (env attempt).status ≠ 200 →
      isPendingResp (env attempt) = false →
      confirmGo env (fuel + 1) attempt = ([.poll attempt], .failed)) ∧
    (∀ (env : ℕ → ConfirmResp) (fuel attempt : ℕ), (env attempt).status ≠ 200 →
      isPendingResp (env attempt) = true →
      confirmGo env (fuel + 1) attempt =
        (.poll attempt :: .sleepSec 2 :: (confirmGo env fuel (attempt + 1)).1,
          (confirmGo env fuel (attempt + 1)).2)) ∧
    (∀ env : ℕ → ConfirmResp, pollCount (confirmRun env).1 ≤ 6) := by
  refine ⟨?_, ?_, ?_, ?_, ?_⟩
  · intro env hpend
    have st : ∀ a, 1 ≤ a → a ≤ 6 → ¬((env a).status = 200) := by
      intro a h1 h2 hs
      have h402 := isPendingResp_status _ (hpend a h1 h2)
      omega
    have step : ∀ (a : ℕ), 1 ≤ a → a ≤ 6 → ∀ f : ℕ,
        confirmGo env (f + 1) a =
          (.poll a :: .sleepSec 2 :: (confirmGo env f (a + 1)).1,
            (confirmGo env f (a + 1)).2) := by
      intro a h1 h2 f
      rw [confirmGo_succ, if_neg (st a h1 h2), if_pos (hpend a h1 h2)]
    have h6 : confirmGo env 1 6 =
        ([.poll 6, .sleepSec 2], .timeout) := by
      have h := step 6 (by norm_num) (by norm_num) 0
      exact h
    have h5 : confirmGo env 2 5 =
        ([.poll 5, .sleepSec 2, .poll 6, .sleepSec 2], .timeout) := by
      have h := step 5 (by norm_num) (by norm_num) 1
      rw [h6] at h
      exact h
    have h4 : confirmGo env 3 4 =
        ([.poll 4, .sleepSec 2, .poll 5, .sleepSec 2, .poll 6, .sleepSec 2],
          .timeout) := by
      have h := step 4 (by norm_num) (by norm_num) 2
      rw [h5] at h
      exact h
    have h3 : confirmGo env 4 3 =
        ([.poll 3, .sleepSec 2, .poll 4, .sleepSec 2, .poll 5, .sleepSec 2,
          .poll 6, .sleepSec 2], .timeout) := by
      have h := step 3 (by norm_num) (by norm_num) 3
      rw [h4] at h
      exact h
    have h2 : confirmGo env 5 2 =
        ([.poll 2, .sleepSec 2, .poll 3, .sleepSec 2, .poll 4, .sleepSec 2,
          .poll 5, .sleepSec 2, .poll 6, .sleepSec 2], .timeout) := by
      have h := step 2 (by norm_num) (by norm_num) 4
      rw [h3] at h
      exact h
    have h1 : confirmGo env 6 1 =
        ([.poll 1, .sleepSec 2, .poll 2, .sleepSec 2, .poll 3, .sleepSec 2,
          .poll 4, .sleepSec 2, .poll 5, .sleepSec 2, .poll 6, .sleepSec 2],
          .timeout) := by
      have h := step 1 (by norm_num) (by norm_num) 5
      rw [h2] at h
      exact h
    exact h1
  · intro env fuel attempt h
    rw [confirmGo_succ, if_pos h]
  · intro env fuel attempt h200 hpend
    rw [confirmGo_succ, if_neg h200, if_neg (by simp [hpend])]
  · intro env fuel attempt h200 hpend
    rw [confirmGo_succ, if_neg h200, if_pos hpend]
  · intro env
    exact pollCount_confirmGo_le env 6 1

/-- Claim C5 witness: six pending replies at the constant pending environment
end in `CONFIRM_TIMEOUT` after six polls. -/
theorem confirm_polling_behaviour_witness :
    confirmRun pendingConfirmEnv =
      ([.poll 1, .sleepSec 2, .poll 2, .sleepSec 2, .poll 3, .sleepSec 2,
        .poll 4, .sleepSec 2, .poll 5, .sleepSec 2, .poll 6, .sleepSec 2],
        .timeout) :=
  confirm_polling_behaviour.1 pendingConfirmEnv (fun _ _ _ => rfl)

/-! ## Claims C6 and C7 -/

theorem pickGo_cons (client_loc : GeoPoint) (d : Device) (ds : List Device)
    (best : Option Device) (best_d : ℝ) :
    pickGo client_loc (d :: ds) best best_d =
      (if distTo client_loc d < best_d then
        pickGo client_loc ds (some d) (distTo client_loc d)
      else pickGo client_loc ds best best_d) :=
  rfl

theorem haversine_lt_sentinel (lat1 lon1 lat2 lon2 : ℝ) :
    haversine_m lat1 lon1 lat2 lon2 < 10 ^ 18 := by
  unfold haversine_m
  have h1 := Real.arcsin_le_pi_div_two (Real.sqrt
    (Real.sin (radians (lat2 - lat1) / 2) ^ 2 +
      Real.cos (radians lat1) * Real.cos (radians lat2) *
        Real.sin (radians (lon2 - lon1) / 2) ^ 2))
  have hpi := Real.pi_le_four
  nlinarith [h1, hpi]

theorem pickGo_spec (client_loc : GeoPoint) (l : List Device) :
    ∀ (best : Option Device) (best_d : ℝ),
    (pickGo client_loc l best best_d = (best, best_d) ∧
      ∀ d ∈ l, best_d ≤ distTo client_loc d) ∨
    (∃ i : Fin l.length,
      pickGo client_loc l best best_d =
        (some (l.get i), distTo client_loc (l.get i)) ∧
      distTo client_loc (l.get i) < best_d ∧
      (∀ d ∈ l, distTo client_loc (l.get i) ≤ distTo client_loc d) ∧
      (∀ j : Fin l.length, (j : ℕ) < (i : ℕ) →
        distTo client_loc (l.get i) < distTo client_loc (l.get j))) := by
  induction l with
  | nil =>
    intro best best_d
    left
    exact ⟨rfl, by simp⟩
  | cons d0 ds ih =>
    intro best best_d
    by_cases hlt : distTo client_loc d0 < best_d
    · have hGo : pickGo client_loc (d0 :: ds) best best_d =
          pickGo client_loc ds (some d0) (distTo client_loc d0) := by
        rw [pickGo_cons, if_pos hlt]
      rcases ih (some d0) (distTo client_loc d0) with
        ⟨heq, hall⟩ | ⟨i, heq, hlt2, hmin, hfirst⟩
      · right
        refine ⟨⟨0, by simp⟩, ?_, hlt, ?_, ?_⟩
        · rw [hGo, heq]
          rfl
        · intro d hd
          rcases List.mem_cons.mp hd with hh | hh
          · rw [hh]
            exact le_of_eq rfl
          · exact hall d hh
        · intro j hj
          exact absurd hj (Nat.not_lt_zero _)
      · right
        refine ⟨⟨i + 1, Nat.succ_lt_succ i.isLt⟩, ?_, lt_trans hlt2 hlt, ?_, ?_⟩
        · rw [hGo, heq]
          rfl
        · intro d hd
          rcases List.mem_cons.mp hd with hh | hh
          · rw [hh]
            exact le_of_lt hlt2
          · exact hmin d hh
        · intro j hj
          rcases j with ⟨jv, hjl⟩
          cases jv with
          | zero => exact hlt2
          | succ k =>
            exact hfirst ⟨k, Nat.lt_of_succ_lt_succ hjl⟩ (Nat.lt_of_succ_lt_succ hj)
    · have hGo : pickGo client_loc (d0 :: ds) best best_d =
          pickGo client_loc ds best best_d := by
        rw [pickGo_cons, if_neg hlt]
      have hge : best_d ≤ distTo client_loc d0 := not_lt.mp hlt
      rcases ih best best_d with ⟨heq, hall⟩ | ⟨i, heq, hlt2, hmin, hfirst⟩
      · left
        refine ⟨by rw [hGo, heq], ?_⟩
        intro d hd
        rcases List.mem_cons.mp hd with hh | hh
        · rw [hh]
          exact hge
        · exact hall d hh
      · right
        refine ⟨⟨i + 1, Nat.succ_lt_succ i.isLt⟩, ?_, hlt2, ?_, ?_⟩
        · rw [hGo, heq]
          rfl
        · intro d hd
          rcases List.mem_cons.mp hd with hh | hh
          · rw [hh]
            exact le_of_lt (lt_of_lt_of_le hlt2 hge)
          · exact hmin d hh
        · intro j hj
          rcases j with ⟨jv, hjl⟩
          cases jv with
          | zero => exact lt_of_lt_of_le hlt2 hge
          | succ k =>
            exact hfirst ⟨k, Nat.lt_of_succ_lt_succ hjl⟩ (Nat.lt_of_succ_lt_succ hj)

/-- Claim C6: for every non-empty candidate list and every origin, the
selection returns a candidate whose haversine distance (Earth radius
6,371,000 m) to the origin is minimal over the list, and it is the first such
candidate in input order — every strictly earlier candidate is strictly
farther, because the scan updates only on strictly smaller distance. -/
theorem pick_nearest_min (l : List Device) (o : GeoPoint) (h : l ≠ []) :
    ∃ i : Fin l.length,
      (pick_nearest_device l o).1 = some (l.get i) ∧
      (∀ d ∈ l, distTo o (l.get i) ≤ distTo o d) ∧
      (∀ j : Fin l.length, (j : ℕ) < (i : ℕ) →
        distTo o (l.get i) < distTo o (l.get j)) := by
  rcases pickGo_spec o l none (10 ^ 18) with ⟨heq, hall⟩ | ⟨i, heq, _, hmin, hfirst⟩
  · obtain ⟨d0, ds, rfl⟩ : ∃ d0 ds, l = d0 :: ds := by
      cases l with
      | nil => exact absurd rfl h
      | cons d0 ds => exact ⟨d0, ds, rfl⟩
    have hb : (10 : ℝ) ^ 18 ≤ distTo o d0 := hall d0 (List.mem_cons_self _ _)
    have hc : distTo o d0 < (10 : ℝ) ^ 18 :=
      haversine_lt_sentinel o.lat o.lon d0.location.lat d0.location.lon
    exact absurd hb (not_le.mpr hc)
  · refine ⟨i, ?_, hmin, hfirst⟩
    show (pickGo o l none (10 ^ 18)).1 = some (l.get i)
    rw [heq]

/-- Claim C6 witness: the selection at a one-element list. -/
theorem pick_nearest_min_witness :
    ∃ i : Fin ([sampleDevice].length),
      (pick_nearest_device [sampleDevice] originPoint).1 =
        some ([sampleDevice].get i) ∧
      (∀ d ∈ [sampleDevice],
        distTo originPoint ([sampleDevice].get i) ≤ distTo originPoint d) ∧
      (∀ j : Fin ([sampleDevice].length), (j : ℕ) < (i : ℕ) →
        distTo originPoint ([sampleDevice].get i) <
          distTo originPoint ([sampleDevice].get j)) :=
  pick_nearest_min [sampleDevice] originPoint (by simp)

/-- Claim C7 counterexample: on the empty candidate list the operation does
not fail with `EMPTY_CANDIDATES` — no such error exists in the code; it
returns normally, with no device and the sentinel distance `10 ^ 18`. -/
theorem pick_nearest_empty_returns :
    pick_nearest_device [] originPoint = (none, 10 ^ 18) := by
  unfold pick_nearest_device pickGo intTrunc
  rw [if_pos (by positivity : (0:ℝ) ≤ 10 ^ 18)]
  rw [show ((10 : ℝ) ^ 18) = ((10 ^ 18 : ℤ) : ℝ) from by norm_num,
    Int.floor_intCast]

/-- Claim C7 (amended): for every origin, the selection applied to the empty
candidate list returns normally with no device (`None`) and the sentinel
distance `10 ^ 18`, instead of failing; the `EMPTY_CANDIDATES` failure of the
spec is not implemented (the caller would instead crash later when
subscripting the `None` device). -/
theorem pick_nearest_empty (o : GeoPoint) :
    pick_nearest_device [] o = (none, 10 ^ 18) := by
  unfold pick_nearest_device pickGo intTrunc
  rw [if_pos (by positivity : (0:ℝ) ≤ 10 ^ 18)]
  rw [show ((10 : ℝ) ^ 18) = ((10 ^ 18 : ℤ) : ℝ) from by norm_num,
    Int.floor_intCast]

end DeFiUtilityBot
